import Mathlib

/-!
Shallow embedding of the boston-food repository.

Server side (the `/api/places` GET route handler): an in-memory TTL cache
keyed by the request's five query parameters, a call to the external
places-search API (modelled as an oracle parameter), normalization of the
raw upstream records, and server-side price / open-now filtering.

Client side (the RestaurantMatrix component): the derived list of distinct
category labels and the client-side filter pass (name search, open-now,
price range, selected type).

Numbers that the code only passes through or compares (ratings) are
modelled as ℚ; integer-valued quantities (price tier, review count,
price bounds) as ℤ; timestamps in milliseconds as ℕ.
-/

/-- Time-to-live in milliseconds (12 hours): `const TTL = 1000 * 60 * 60 * 12`. -/
def TTL : Nat := 1000 * 60 * 60 * 12

/-- `const PRICE_LEVELS = [0, 1, 2, 3, 4] as const`. -/
def PRICE_LEVELS : List Int := [0, 1, 2, 3, 4]

/-- A raw record of the upstream `PlaceResponse`.  `displayName` collapses the
`displayName?.text` access to one optional string; `openNow` collapses
`currentOpeningHours?.openNow` to one optional boolean. -/
structure RawPlace where
  id : String
  placeId : String
  displayName : Option String
  rating : Option ℚ
  userRatingCount : Option Int
  priceLevel : Option Int
  types : Option (List String)
  openNow : Option Bool
  businessStatus : Option String
deriving Repr, DecidableEq

/-- The normalized `Place` record (the server's interface; the client's
`Place` interface has the same fields it reads). -/
structure Place where
  id : String
  place_id : String
  name : String
  rating : ℚ
  user_ratings_total : Int
  price_level : Int
  types : List String
  open_now : Option Bool
deriving Repr, DecidableEq

/-- The `.map` step of `mapped`: per-field normalization of one raw record.
Mirrors lines 99-108 of the route handler:
`rating: p.rating ?? 0`, `user_ratings_total: p.userRatingCount ?? 0`,
`price_level: PRICE_LEVELS.includes(p.priceLevel) ? p.priceLevel : 0`,
`types: p.types ?? []`, `open_now: p.currentOpeningHours?.openNow`,
`name: p.displayName?.text ?? "Unknown"`. -/
def normalizePlace (p : RawPlace) : Place :=
  { id := p.id
    place_id := p.placeId
    name := p.displayName.getD "Unknown"
    rating := p.rating.getD 0
    user_ratings_total := p.userRatingCount.getD 0
    price_level :=
      match p.priceLevel with
      | some v => if PRICE_LEVELS.contains v then v else 0
      | none => 0
    types := p.types.getD []
    open_now := p.openNow }

/-- The first stage of `mapped`: drop non-operational records, then normalize.
`(json.places ?? []).filter((p) => p.businessStatus === "OPERATIONAL").map(...)`. -/
def mappedStage1 (raws : List RawPlace) : List Place :=
  (raws.filter (fun p => p.businessStatus == some "OPERATIONAL")).map normalizePlace

/-- Server-side price filter predicate, line 109:
`p.price_level >= minPrice && p.price_level <= maxPrice`. -/
def serverPricePass (minPrice maxPrice : Int) (p : Place) : Bool :=
  decide (p.price_level ≥ minPrice) && decide (p.price_level ≤ maxPrice)

/-- Server-side open-now filter predicate, lines 110-116:
`if (openNow) { return p.open_now !== false; } return true;`. -/
def serverOpenNowPass (openNow : Bool) (p : Place) : Bool :=
  if openNow then p.open_now != some false else true

/-- The full `mapped` pipeline of the route handler: status filter + per-field
normalization, then the requested server-side price and open-now filters. -/
def mapped (raws : List RawPlace) (minPrice maxPrice : Int) (openNow : Bool) : List Place :=
  ((mappedStage1 raws).filter (serverPricePass minPrice maxPrice)).filter
    (serverOpenNowPass openNow)

/-- The five query parameters of a request, after the handler's defaulting.
The source builds the cache key as `JSON.stringify({ q, openNow, minPrice,
maxPrice, type })` — a canonical serialization with stable field order, hence
injective on the parameter tuple; the key is modelled as the tuple itself. -/
structure ReqParams where
  q : String
  openNow : Bool
  minPrice : Int
  maxPrice : Int
  type : String
deriving Repr, DecidableEq

/-- One cache entry: `{ t: number; data: any }` with `t` the creation
timestamp and `data` the stored list. -/
structure CacheEntry where
  t : Nat
  data : List Place
deriving Repr, DecidableEq

/-- The module-level `CACHE: Map<string, {t, data}>`, modelled as an
association list. -/
abbrev Cache := List (ReqParams × CacheEntry)

/-- `CACHE.get(cacheKey)`. -/
def cacheGet (c : Cache) (k : ReqParams) : Option CacheEntry :=
  (c.find? (fun e => decide (e.1 = k))).map (fun e => e.2)

/-- `CACHE.set(cacheKey, { t: Date.now(), data: mapped })`: last write wins
for the key; other keys are untouched. -/
def cacheSet (c : Cache) (k : ReqParams) (v : CacheEntry) : Cache :=
  (k, v) :: c.filter (fun e => decide (e.1 ≠ k))

/-- The outcome of the one outbound `fetch` to the external places API,
supplied to the handler as an oracle: a non-ok response carries the raw
response text (`await res.text()`); an ok response carries the parsed
`json.places` array. -/
inductive UpstreamResult where
  | failure (body : String)
  | success (places : List RawPlace)
deriving Repr, DecidableEq

/-- The handler's observable result: HTTP status, JSON body (`{ error: text }`
or `{ places: list }`), and how many external API calls were made while
handling the request. -/
structure GetResult where
  status : Nat
  body : Except String (List Place)
  apiCalls : Nat
deriving Repr

/-- The cache-miss path of the handler: one external call; on `!res.ok`
return status 500 with `{ error: text }` and leave the cache alone; on
success normalize and filter, store under the key with the current
timestamp, and return `{ places: mapped }`. -/
def fetchAndStore (req : ReqParams) (now : Nat) (u : UpstreamResult) (c : Cache) :
    GetResult × Cache :=
  match u with
  | .failure text => (⟨500, .error text, 1⟩, c)
  | .success raws =>
      let m := mapped raws req.minPrice req.maxPrice req.openNow
      (⟨200, .ok m, 1⟩, cacheSet c req ⟨now, m⟩)

/-- The `GET` route handler: `const cached = CACHE.get(cacheKey); if (cached
&& Date.now() - cached.t < TTL) return { places: cached.data };` else the
cache-miss path.  `now` is `Date.now()`; `Date.now() - cached.t` is JS
number subtraction, which for `cached.t` in the future is negative and thus
below TTL, matching truncated ℕ subtraction. -/
def GET (req : ReqParams) (now : Nat) (u : UpstreamResult) (c : Cache) :
    GetResult × Cache :=
  match cacheGet c req with
  | some e =>
      if now - e.t < TTL then (⟨200, .ok e.data, 0⟩, c)
      else fetchAndStore req now u c
  | none => fetchAndStore req now u c

/-- The request does not hit a fresh cache entry: every entry stored under
the key (there is at most one) has age at least TTL. -/
def cacheMiss (c : Cache) (k : ReqParams) (now : Nat) : Prop :=
  ∀ e, cacheGet c k = some e → TTL ≤ now - e.t

/-! Client side (RestaurantMatrix). -/

/-- Character-list helper for JS `String.prototype.includes`: needle is a
prefix of the haystack. -/
def prefixCheck : List Char → List Char → Bool
  | [], _ => true
  | _ :: _, [] => false
  | a :: as, b :: bs => a == b && prefixCheck as bs

/-- Character-list helper for JS `String.prototype.includes`: needle occurs
somewhere in the haystack. -/
def infixCheck (needle : List Char) : List Char → Bool
  | [] => prefixCheck needle []
  | b :: bs => prefixCheck needle (b :: bs) || infixCheck needle bs

/-- JS `hay.includes(needle)`: substring containment. -/
def strIncludes (hay needle : String) : Bool :=
  infixCheck needle.data hay.data

/-- JS `s.toLowerCase()`, modelled character-wise with `Char.toLower`. -/
def jsToLower (s : String) : String :=
  ⟨s.data.map Char.toLower⟩

/-- The component's filter state: `search`, `openNowOnly`,
`priceRange = [priceMin, priceMax]`, `selectedType`. -/
structure FilterState where
  search : String
  openNowOnly : Bool
  priceMin : Int
  priceMax : Int
  selectedType : String
deriving Repr, DecidableEq

/-- Initial state of the four controls: `useState("")`, `useState(false)`,
`useState([0, 4])`, `useState("")`. -/
def defaultFilters : FilterState := ⟨"", false, 0, 4, ""⟩

/-- First early-return check of `filtered`, lines 70-72:
`if (search && !p.name.toLowerCase().includes(search.toLowerCase())) return false`. -/
def namePass (search : String) (p : Place) : Bool :=
  !(search != "" && !(strIncludes (jsToLower p.name) (jsToLower search)))

/-- Second early-return check of `filtered`, lines 76-78:
`if (openNowOnly && p.open_now === false) return false`. -/
def openNowPass (openNowOnly : Bool) (p : Place) : Bool :=
  !(openNowOnly && p.open_now == some false)

/-- Third early-return check of `filtered`, lines 80-81:
`if (p.price_level < priceRange[0] || p.price_level > priceRange[1]) return false`. -/
def pricePass (priceMin priceMax : Int) (p : Place) : Bool :=
  !(decide (p.price_level < priceMin) || decide (p.price_level > priceMax))

/-- Fourth early-return check of `filtered`, lines 85-87:
`if (selectedType && !p.types.includes(selectedType)) return false`. -/
def typePass (selectedType : String) (p : Place) : Bool :=
  !(selectedType != "" && !(p.types.contains selectedType))

/-- The body of `data.filter((p) => ...)`: a record is kept exactly when none
of the four early-return checks fires. -/
def clientKeep (f : FilterState) (p : Place) : Bool :=
  namePass f.search p && openNowPass f.openNowOnly p &&
    pricePass f.priceMin f.priceMax p && typePass f.selectedType p

/-- The derived `filtered` list of the component. -/
def clientFiltered (f : FilterState) (data : List Place) : List Place :=
  data.filter (clientKeep f)

/-- The derived `availableTypes` list, lines 56-62: insert every type of
every record into a `Set`, then `Array.from(set).sort()`.  The `Set` is
modelled by `dedup` (the sort makes the surviving occurrence irrelevant)
and the default lexicographic JS sort by `insertionSort` on String `≤`. -/
def availableTypes (data : List Place) : List String :=
  List.insertionSort (· ≤ ·) ((data.flatMap (fun p => p.types)).dedup)

/-! Concrete records used by the witness theorems. -/

/-- A raw record with every optional field missing except an out-of-range
price tier (7), an open-now flag, and an operational status. -/
def praw : RawPlace :=
  ⟨"id1", "pid1", none, none, none, some 7, none, some true, some "OPERATIONAL"⟩

/-- An operational raw record carrying a negative rating and a negative
review count, as nothing in the upstream schema forbids. -/
def badRaw : RawPlace :=
  ⟨"id2", "pid2", none, some (-1), some (-2), some 2, none, none, some "OPERATIONAL"⟩

/-- A well-formed operational raw record. -/
def goodRaw : RawPlace :=
  ⟨"id3", "pid3", some "Cafe", some 4, some 120, some 3, some ["cafe"], some false,
    some "OPERATIONAL"⟩

/-- A normalized record satisfying the Place invariants. -/
def placeA : Place := ⟨"i", "pi", "n", 4, 10, 2, ["cafe"], none⟩

/-- The default request parameters of the handler. -/
def reqA : ReqParams := ⟨"restaurants in Boston, MA", false, 0, 4, ""⟩

/-- A cache entry stored at time 0 with an empty list. -/
def entryA : CacheEntry := ⟨0, []⟩

/-- A cache holding `entryA` under the key `reqA`. -/
def cacheA : Cache := [(reqA, entryA)]

/-! Helper lemmas. -/

/-- Correctness of `prefixCheck`: it decides "needle is a prefix of the
haystack". -/
theorem prefixCheck_iff (n l : List Char) :
    prefixCheck n l = true ↔ ∃ post, n ++ post = l := by
  induction n generalizing l with
  | nil => simp [prefixCheck]
  | cons a as ih =>
    cases l with
    | nil => simp [prefixCheck]
    | cons b bs =>
      rw [prefixCheck]
      simp only [Bool.and_eq_true, beq_iff_eq, ih]
      constructor
      · rintro ⟨rfl, post, rfl⟩
        exact ⟨post, rfl⟩
      · rintro ⟨post, h⟩
        injection h with h1 h2
        exact ⟨h1, post, h2⟩

/-- Correctness of `infixCheck`: it decides "needle occurs contiguously in
the haystack". -/
theorem infixCheck_iff (n l : List Char) :
    infixCheck n l = true ↔ ∃ pre post, pre ++ n ++ post = l := by
  induction l with
  | nil =>
    rw [infixCheck, prefixCheck_iff]
    constructor
    · rintro ⟨post, h⟩
      exact ⟨[], post, h⟩
    · rintro ⟨pre, post, h⟩
      rcases List.append_eq_nil.mp h with ⟨h1, h2⟩
      rcases List.append_eq_nil.mp h1 with ⟨h3, h4⟩
      exact ⟨[], by simp [h3, h4]⟩
  | cons b bs ih =>
    rw [infixCheck]
    simp only [Bool.or_eq_true, prefixCheck_iff, ih]
    constructor
    · rintro (⟨post, h⟩ | ⟨pre, post, h⟩)
      · exact ⟨[], post, h⟩
      · exact ⟨b :: pre, post, by simp [h]⟩
    · rintro ⟨pre, post, h⟩
      cases pre with
      | nil => exact Or.inl ⟨post, by simpa using h⟩
      | cons x xs =>
        injection h with h1 h2
        subst h1
        exact Or.inr ⟨xs, post, h2⟩

/-- Correctness of `strIncludes`: substring containment on the underlying
character lists. -/
theorem strIncludes_iff (t n : String) :
    strIncludes t n = true ↔ ∃ pre post, pre ++ n.data ++ post = t.data := by
  rw [strIncludes]
  exact infixCheck_iff n.data t.data

/-- `PRICE_LEVELS.includes(v)` is exactly the range check `0 ≤ v ≤ 4`. -/
theorem priceLevels_contains_iff (v : Int) :
    PRICE_LEVELS.contains v = true ↔ 0 ≤ v ∧ v ≤ 4 := by
  simp [PRICE_LEVELS]
  omega

/-- Storing under a key makes the entry retrievable under that key. -/
theorem cacheGet_cacheSet_self (c : Cache) (k : ReqParams) (v : CacheEntry) :
    cacheGet (cacheSet c k v) k = some v := by
  simp [cacheGet, cacheSet, List.find?]

/-- The entry of `cacheA` for `reqA` has expired once `Date.now()` reaches
`TTL`. -/
theorem cacheA_expired : cacheMiss cacheA reqA TTL := by
  intro e he
  rw [show cacheGet cacheA reqA = some entryA from rfl] at he
  injection he with h'
  subst h'
  decide

/-! Claim theorems. -/

/-- C1: Cache behaviour of the GET handler.  If the key built from the five
filter parameters has a cache entry whose age is strictly below the 12-hour
TTL, the handler returns that entry's stored list with no external API call
and leaves the cache unchanged.  If the key has no entry, or only an entry
whose TTL has elapsed, the handler performs exactly one external API call
and, on upstream success, returns the freshly normalized and filtered list
and overwrites the entry for that key with this list and the current
timestamp. -/
theorem fetchPlaces_cache_ttl (req : ReqParams) (now : Nat) (u : UpstreamResult) (c : Cache) :
    (∀ e, cacheGet c req = some e → now - e.t < TTL →
      GET req now u c = (⟨200, Except.ok e.data, 0⟩, c)) ∧
    (cacheMiss c req now → ∀ raws, u = UpstreamResult.success raws →
      GET req now u c =
        (⟨200, Except.ok (mapped raws req.minPrice req.maxPrice req.openNow), 1⟩,
          cacheSet c req ⟨now, mapped raws req.minPrice req.maxPrice req.openNow⟩) ∧
      cacheGet (GET req now u c).2 req =
        some ⟨now, mapped raws req.minPrice req.maxPrice req.openNow⟩) := by
  constructor
  · intro e he hlt
    unfold GET
    rw [he]
    simp [hlt]
  · intro hm raws hu
    subst hu
    have hres : GET req now (UpstreamResult.success raws) c =
        (⟨200, Except.ok (mapped raws req.minPrice req.maxPrice req.openNow), 1⟩,
          cacheSet c req ⟨now, mapped raws req.minPrice req.maxPrice req.openNow⟩) := by
      unfold GET
      cases hget : cacheGet c req with
      | none => simp [fetchAndStore]
      | some e =>
        have hexp := hm e hget
        simp [fetchAndStore, Nat.not_lt.mpr hexp]
    refine ⟨hres, ?_⟩
    rw [hres]
    exact cacheGet_cacheSet_self c req _

/-- Witness for C1: on `cacheA` a request at time 5 is a fresh hit (no API
call, cache untouched), and a request at time `TTL` is an expired miss
(one API call, entry overwritten with the new list and timestamp). -/
theorem fetchPlaces_cache_ttl_witness :
    GET reqA 5 (UpstreamResult.failure "x") cacheA =
      (⟨200, Except.ok ([] : List Place), 0⟩, cacheA) ∧
    GET reqA TTL (UpstreamResult.success []) cacheA =
      (⟨200, Except.ok ([] : List Place), 1⟩, cacheSet cacheA reqA ⟨TTL, []⟩) ∧
    cacheGet (GET reqA TTL (UpstreamResult.success []) cacheA).2 reqA = some ⟨TTL, []⟩ := by
  have h1 := (fetchPlaces_cache_ttl reqA 5 (UpstreamResult.failure "x") cacheA).1
    entryA rfl (by decide)
  have h2 := (fetchPlaces_cache_ttl reqA TTL (UpstreamResult.success []) cacheA).2
    cacheA_expired [] rfl
  exact ⟨h1, h2.1, h2.2⟩

/-- C2: Normalization of every raw upstream record.  A singleton input is
kept by the status filter exactly when its operational status is
`"OPERATIONAL"` (and dropped for no other reason); in a normalized record a
missing rating becomes 0, a missing review count becomes 0, a missing or
out-of-range price tier becomes 0, missing categories become the empty
list, and the tri-state open-now flag is carried over unchanged. -/
theorem normalize_drop_and_defaults (p : RawPlace) :
    mappedStage1 [p] =
      (if p.businessStatus = some "OPERATIONAL" then [normalizePlace p] else []) ∧
    (p.rating = none → (normalizePlace p).rating = 0) ∧
    (p.userRatingCount = none → (normalizePlace p).user_ratings_total = 0) ∧
    (p.priceLevel = none → (normalizePlace p).price_level = 0) ∧
    (∀ v, p.priceLevel = some v → ¬(0 ≤ v ∧ v ≤ 4) → (normalizePlace p).price_level = 0) ∧
    (p.types = none → (normalizePlace p).types = []) ∧
    (normalizePlace p).open_now = p.openNow := by
  refine ⟨?_, ?_, ?_, ?_, ?_, ?_, ?_⟩
  · by_cases h : p.businessStatus = some "OPERATIONAL"
    · simp [mappedStage1, List.filter, h]
    · have hb : (p.businessStatus == some "OPERATIONAL") = false :=
        beq_eq_false_iff_ne.mpr h
      simp [mappedStage1, List.filter, h, hb]
  · intro h; simp [normalizePlace, h]
  · intro h; simp [normalizePlace, h]
  · intro h; simp [normalizePlace, h]
  · intro v hv hout
    simp only [normalizePlace, hv]
    exact if_neg (fun hc => hout ((priceLevels_contains_iff v).mp hc))
  · intro h; simp [normalizePlace, h]
  · simp [normalizePlace]

/-- Witness for C2: `praw` (missing rating, review count and categories,
price tier 7, operational) is kept and normalizes to rating 0, review count
0, price tier 0, empty categories, with its open-now flag preserved. -/
theorem normalize_drop_and_defaults_witness :
    mappedStage1 [praw] = [normalizePlace praw] ∧
    (normalizePlace praw).rating = 0 ∧
    (normalizePlace praw).user_ratings_total = 0 ∧
    (normalizePlace praw).price_level = 0 ∧
    (normalizePlace praw).types = [] ∧
    (normalizePlace praw).open_now = some true := by
  obtain ⟨h1, h2, h3, _, h5, h6, h7⟩ := normalize_drop_and_defaults praw
  exact ⟨h1.trans (if_pos rfl), h2 rfl, h3 rfl, h5 7 rfl (by omega), h6 rfl, h7.trans rfl⟩

/-- C3: Open-now filtering is tri-state and permissive toward unknown,
identically on the server and the client.  The client check and the server
check agree on every record; with the filter active a record passes exactly
when its open-now flag is not explicitly false (true or absent both pass);
with the filter inactive every record passes. -/
theorem openNow_filter_triState (p : Place) (b : Bool) :
    openNowPass b p = serverOpenNowPass b p ∧
    (openNowPass true p = true ↔ p.open_now ≠ some false) ∧
    openNowPass false p = true := by
  refine ⟨?_, ?_, ?_⟩
  · cases b with
    | false => simp [openNowPass, serverOpenNowPass]
    | true =>
      cases hb : p.open_now with
      | none => simp [openNowPass, serverOpenNowPass, hb]
      | some v => cases v <;> simp [openNowPass, serverOpenNowPass, hb]
  · cases hb : p.open_now with
    | none => simp [openNowPass, hb]
    | some v => cases v <;> simp [openNowPass, hb]
  · simp [openNowPass]

/-- C4 counterexample: the claimed invariant "rating and review count are
always non-negative for every possible raw upstream record" fails on the
code.  The raw record `badRaw` (operational, rating −1, review count −2) is
kept by the normalizer and yields a Place with negative rating and negative
review count, because the normalizer only substitutes 0 for missing values
and never clamps present ones. -/
theorem place_invariants_counterexample :
    mappedStage1 [badRaw] = [normalizePlace badRaw] ∧
    (normalizePlace badRaw).rating < 0 ∧
    (normalizePlace badRaw).user_ratings_total < 0 := by
  refine ⟨rfl, ?_, ?_⟩ <;> decide

/-- C4 amended: every Place produced by the normalizer has price tier in
[0,4] unconditionally, for every possible raw upstream record; its rating
is non-negative provided the raw record's rating, where present, is
non-negative, and likewise its review count. -/
theorem place_invariants_amended (p : RawPlace) :
    (0 ≤ (normalizePlace p).price_level ∧ (normalizePlace p).price_level ≤ 4) ∧
    ((∀ r, p.rating = some r → 0 ≤ r) → 0 ≤ (normalizePlace p).rating) ∧
    ((∀ m, p.userRatingCount = some m → 0 ≤ m) →
      0 ≤ (normalizePlace p).user_ratings_total) := by
  refine ⟨?_, ?_, ?_⟩
  · cases hv : p.priceLevel with
    | none => simp [normalizePlace, hv]
    | some v =>
      simp only [normalizePlace, hv]
      by_cases hcont : PRICE_LEVELS.contains v = true
      · rw [if_pos hcont]
        exact (priceLevels_contains_iff v).mp hcont
      · rw [if_neg hcont]
        omega
  · intro hr
    cases hv : p.rating with
    | none => simp [normalizePlace, hv]
    | some r =>
      simp only [normalizePlace, hv, Option.getD_some]
      exact hr r hv
  · intro hc
    cases hv : p.userRatingCount with
    | none => simp [normalizePlace, hv]
    | some m =>
      simp only [normalizePlace, hv, Option.getD_some]
      exact hc m hv

/-- Witness for the amended C4, at the concrete record `goodRaw`. -/
theorem place_invariants_amended_witness :
    (0 ≤ (normalizePlace goodRaw).price_level ∧ (normalizePlace goodRaw).price_level ≤ 4) ∧
    0 ≤ (normalizePlace goodRaw).rating ∧ 0 ≤ (normalizePlace goodRaw).user_ratings_total := by
  obtain ⟨h1, h2, h3⟩ := place_invariants_amended goodRaw
  refine ⟨h1, h2 ?_, h3 ?_⟩
  · intro r h
    rw [show goodRaw.rating = some 4 from rfl] at h
    injection h with h'
    subst h'
    decide
  · intro m h
    rw [show goodRaw.userRatingCount = some 120 from rfl] at h
    injection h with h'
    subst h'
    decide

/-- C5: Filter identity.  For every list of Place records whose price tiers
satisfy the invariant 0 ≤ price tier ≤ 4, the client filter with the
default filter state (empty search, open-now-only false, price range
[0,4], no category selected) returns the list unchanged. -/
theorem filter_default_identity (l : List Place)
    (h : ∀ p ∈ l, 0 ≤ p.price_level ∧ p.price_level ≤ 4) :
    clientFiltered defaultFilters l = l := by
  rw [clientFiltered, List.filter_eq_self]
  intro a ha
  obtain ⟨h1, h2⟩ := h a ha
  simp [clientKeep, namePass, openNowPass, pricePass, typePass, defaultFilters]
  omega

/-- Witness for C5 at the singleton list `[placeA]`. -/
theorem filter_default_identity_witness :
    clientFiltered defaultFilters [placeA] = [placeA] := by
  refine filter_default_identity [placeA] ?_
  intro p hp
  rw [List.mem_singleton] at hp
  subst hp
  decide

/-- C6: The price filter is inclusive at both bounds on both client and
server: a Place passes with bounds [minPrice, maxPrice] exactly when
minPrice ≤ price tier ≤ maxPrice, so a Place whose tier equals either
bound passes. -/
theorem price_filter_inclusive (p : Place) (lo hi : Int) :
    (pricePass lo hi p = true ↔ lo ≤ p.price_level ∧ p.price_level ≤ hi) ∧
    (serverPricePass lo hi p = true ↔ lo ≤ p.price_level ∧ p.price_level ≤ hi) := by
  constructor
  · rw [pricePass]
    simp only [Bool.not_eq_eq_eq_not, Bool.not_true, Bool.or_eq_false_iff,
      decide_eq_false_iff_not]
    omega
  · rw [serverPricePass]
    simp only [Bool.and_eq_true, decide_eq_true_eq]

/-- C7: Name filter.  A Place passes the name filter with search string `s`
exactly when (the lowering of) `s` occurs as a contiguous substring of (the
lowering of) its display name, and the empty search string passes every
Place. -/
theorem name_filter_ci_substring (p : Place) (s : String) :
    (namePass s p = true ↔
      ∃ pre post, pre ++ (jsToLower s).data ++ post = (jsToLower p.name).data) ∧
    namePass "" p = true := by
  constructor
  · by_cases hs : s = ""
    · subst hs
      constructor
      · intro _
        exact ⟨[], (jsToLower p.name).data, by simp [jsToLower]⟩
      · intro _
        simp [namePass]
    · have hbne : (s != "") = true := by simp [hs]
      rw [namePass, hbne]
      simp only [Bool.true_and, Bool.not_not]
      exact strIncludes_iff _ _
  · simp [namePass]

/-- C8: Category-option derivation.  For every input list, the derived
`availableTypes` list is sorted ascending, has no duplicates, and contains
exactly the labels occurring in some record's category list. -/
theorem availableTypes_sorted_nodup_complete (data : List Place) :
    List.Sorted (· ≤ ·) (availableTypes data) ∧ (availableTypes data).Nodup ∧
    ∀ t, t ∈ availableTypes data ↔ ∃ p ∈ data, t ∈ p.types := by
  refine ⟨List.sorted_insertionSort _ _, ?_, ?_⟩
  · exact ((List.perm_insertionSort _ _).nodup_iff).mpr (List.nodup_dedup _)
  · intro t
    rw [availableTypes, (List.perm_insertionSort _ _).mem_iff, List.mem_dedup,
      List.mem_flatMap]

/-- C9: Upstream-failure handling.  When the request misses the cache and
the external API responds with a non-success, the handler makes exactly one
external call (no retry) and returns status 500 with a body carrying the
raw upstream response text in the error field and no places list. -/
theorem upstream_failure_surfaced (req : ReqParams) (now : Nat) (text : String) (c : Cache)
    (h : cacheMiss c req now) :
    GET req now (UpstreamResult.failure text) c = (⟨500, Except.error text, 1⟩, c) := by
  unfold GET
  cases hget : cacheGet c req with
  | none => simp [fetchAndStore]
  | some e => simp [fetchAndStore, Nat.not_lt.mpr (h e hget)]

/-- Witness for C9: a failing upstream call on an empty cache yields status
500 with the raw body surfaced. -/
theorem upstream_failure_surfaced_witness :
    GET ⟨"sushi", true, 1, 3, "restaurant"⟩ 0 (UpstreamResult.failure "boom") [] =
      (⟨500, Except.error "boom", 1⟩, []) := by
  refine upstream_failure_surfaced _ 0 "boom" [] ?_
  intro e he
  simp [cacheGet] at he

/-- C10: Atomicity of the cache on error.  When the request misses the
cache and the external API call fails, the handler returns before the
cache-store step, so the cache table is exactly as it was before the
request; in particular an existing expired entry for the same key is
neither removed nor overwritten. -/
theorem upstream_failure_cache_unchanged (req : ReqParams) (now : Nat) (text : String)
    (c : Cache) (h : cacheMiss c req now) :
    (GET req now (UpstreamResult.failure text) c).2 = c := by
  unfold GET
  cases hget : cacheGet c req with
  | none => simp [fetchAndStore]
  | some e => simp [fetchAndStore, Nat.not_lt.mpr (h e hget)]

/-- Witness for C10: with the expired entry of `cacheA` still present, a
failing refresh at time `TTL` leaves the cache exactly as it was. -/
theorem upstream_failure_cache_unchanged_witness :
    (GET reqA TTL (UpstreamResult.failure "x") cacheA).2 = cacheA :=
  upstream_failure_cache_unchanged reqA TTL "x" cacheA cacheA_expired
